import Mathlib

/-!
Shallow embedding of `prpy/planning/vectorfield.py` (together with the error
classes of `prpy/planning/base.py`), and proofs about it.

Modelling conventions:
* Joint configurations and joint velocities are `List ℚ` (exact arithmetic in
  place of floating point).
* The external kinematics/collision provider (OpenRAVE plus `prpy.util`) is
  represented by oracle functions of the current configuration: collision
  queries, the Jacobian-based twist solve, and geodesic pose errors.
* Wall-clock time is represented by an oracle `timeoutAt : ℕ → Bool` telling
  whether the time limit has been exceeded at the start of a given iteration.
* A comparison `‖v‖ < t` on a Euclidean norm is encoded exactly over ℚ as
  `0 < t ∧ ‖v‖² < t²`, and `‖v‖ > t` as `t < 0 ∨ t² < ‖v‖²`; lemmas
  `normLt_iff_sqrt` and `normGt_iff_sqrt` below prove these encodings agree
  with the real square root.
* The unbounded `while True` loop is given a fuel parameter; running out of
  fuel yields `none` and never counts as an observed behaviour.
-/

namespace Prpy

/-- Loop-termination signal (class `Status` in vectorfield.py):
`TERMINATE` stops and returns the current trajectory, `CACHE_AND_CONTINUE`
saves a copy of the current trajectory and keeps going, `CONTINUE` keeps
going. -/
inductive Status where
  | TERMINATE
  | CACHE_AND_CONTINUE
  | CONTINUE
deriving DecidableEq

/-- Python exception kinds raised by the planning code: `ValueError` from the
argument validation of `PlanToEndEffectorOffset`; `PlanningError` (base.py),
the recoverable planning failure; and its subclass `UnsupportedPlanningError`
(base.py). An `except PlanningError` clause catches both of the last two but
not `ValueError`. -/
inductive PyError where
  | valueError (msg : String)
  | planningError (msg : String)
  | unsupportedPlanningError (msg : String)
deriving DecidableEq

/-- `true` exactly on the `UnsupportedPlanningError` subclass. -/
def isUnsupportedErr : PyError → Bool
  | .unsupportedPlanningError _ => true
  | _ => false

/-- Dot product of two rational vectors (`numpy.dot`). -/
def dotQ (u v : List ℚ) : ℚ := (List.zipWith (fun a b => a * b) u v).sum

/-- Squared Euclidean norm, `‖v‖²`. -/
def normSq (v : List ℚ) : ℚ := dotQ v v

/-- Exact encoding of `numpy.linalg.norm v < t` over ℚ: a nonnegative norm is
below `t` iff `t` is positive and the squared norm is below `t²`. -/
def normLt (v : List ℚ) (t : ℚ) : Bool := decide (0 < t) && decide (normSq v < t * t)

/-- Exact encoding of `numpy.linalg.norm v > t` over ℚ: the norm exceeds `t`
iff `t` is negative or `t²` is below the squared norm. -/
def normGt (v : List ℚ) (t : ℚ) : Bool := decide (t < 0) || decide (t * t < normSq v)

/-- Minimum of a list of rationals (`min` of a nonempty numpy array; the
source never takes the min of an empty array, so the `[]` value is junk). -/
def ratMin : List ℚ → ℚ
  | [] => 0
  | x :: xs => xs.foldl min x

/-- Exact square root on perfect-square rationals (used to model the
floating-point `numpy.linalg.norm` when normalizing a direction vector; on a
perfect square `s * s` with `0 ≤ s` it returns exactly `s`, see
`ratSqrt_mul_self`). -/
def ratSqrt (q : ℚ) : ℚ := (Nat.sqrt q.num.toNat : ℚ) / (Nat.sqrt q.den : ℚ)

/-- One waypoint inserted into the OpenRAVE trajectory: the flat vector
`[q_curr, dqout, dt]` of vectorfield.py, kept as a record. -/
structure Waypoint where
  q : List ℚ
  dq : List ℚ
  dt : ℚ
deriving DecidableEq

/-- The robot data read once at the start of `FollowVectorField`: initial
active-DOF values and velocities, per-joint position resolutions and velocity
limits. -/
structure Robot where
  q0 : List ℚ
  dq0 : List ℚ
  resolutions : List ℚ
  velLimits : List ℚ

/-- `dt = min(robot.GetDOFResolutions() / robot.GetDOFVelocityLimits())`,
computed once per run of `FollowVectorField`. -/
def dtOf (r : Robot) : ℚ := ratMin (List.zipWith (fun a b => a / b) r.resolutions r.velLimits)

/-- External oracles of `FollowVectorField`: whether the wall-clock time limit
has been exceeded at iteration `n`, and the two collision queries as functions
of the current configuration. -/
structure ExtOracles where
  timeoutAt : ℕ → Bool
  collisionAt : List ℚ → Bool
  selfCollisionAt : List ℚ → Bool

/-- The full environment of one `FollowVectorField` run: oracles, the two
callbacks, the velocity tolerance `dq_tol`, and the fixed timestep `dt`. -/
structure VFEnv where
  timeoutAt : ℕ → Bool
  collisionAt : List ℚ → Bool
  selfCollisionAt : List ℚ → Bool
  fn_vectorfield : List ℚ → List ℚ
  fn_terminate : List ℚ → Except PyError Status
  dq_tol : ℚ
  dt : ℚ

/-- Mutable state of the `while True` loop in `FollowVectorField`:
configuration `q`, the velocity `dqout` carried across iterations, the
trajectory buffer `qtraj`, the cache slot `cached_traj`, and the iteration
counter used by the timeout oracle. `snaps` additionally records every value
ever written to the cache slot, in order; it is write-only instrumentation
that no branch of the loop reads, kept to express "the most recent
CACHE_AND_CONTINUE evaluation" in theorems. -/
structure VFState where
  q : List ℚ
  dqout : List ℚ
  qtraj : List Waypoint
  cached : Option (List Waypoint)
  snaps : List (List Waypoint)
  iter : ℕ
deriving DecidableEq

/-- Outcome of the loop body: normal exit through `break` (`succeeded`) or a
`PlanningError` raised inside the loop (`failed`), each carrying the loop
state at that moment. -/
inductive LoopOut where
  | succeeded (final : VFState)
  | failed (e : PyError) (final : VFState)
deriving DecidableEq

/-- The loop state carried by an outcome. -/
def finalOf : LoopOut → VFState
  | .succeeded f => f
  | .failed _ f => f

/-- The `while True` loop of `FollowVectorField` (vectorfield.py lines
269-304), fuel-indexed. Each iteration: timeout check, environment collision
check, self-collision check, append the waypoint
`(q_curr, dqout, dt)`, compute the new `dqout` from the vector field, stall
check (`norm dqout < dq_tol`), then evaluate `fn_terminate`; the two
sequential `if status == ...` tests of the source are rendered as one case
analysis over the closed `Status` enum (a status has exactly one value, so
`CACHE_AND_CONTINUE` updates the cache slot and continues, `TERMINATE` exits
without touching the cache, `CONTINUE` just continues). Integration is
explicit Euler: `qnew = q_curr + dqout * dt`. -/
def followLoop (env : VFEnv) : ℕ → VFState → Option LoopOut
  | 0, _ => none
  | fuel + 1, s =>
    if env.timeoutAt s.iter then
      some (.failed (.planningError "Reached time limit.") s)
    else if env.collisionAt s.q then
      some (.failed (.planningError "Encountered collision.") s)
    else if env.selfCollisionAt s.q then
      some (.failed (.planningError "Encountered self-collision.") s)
    else
      if normLt (env.fn_vectorfield s.q) env.dq_tol then
        some (.failed (.planningError "Local minimum, unable to progress")
          (VFState.mk s.q (env.fn_vectorfield s.q)
            (s.qtraj ++ [Waypoint.mk s.q s.dqout env.dt]) s.cached s.snaps s.iter))
      else
        match env.fn_terminate s.q with
        | .error e =>
          some (.failed e
            (VFState.mk s.q (env.fn_vectorfield s.q)
              (s.qtraj ++ [Waypoint.mk s.q s.dqout env.dt]) s.cached s.snaps s.iter))
        | .ok Status.TERMINATE =>
          some (.succeeded
            (VFState.mk s.q (env.fn_vectorfield s.q)
              (s.qtraj ++ [Waypoint.mk s.q s.dqout env.dt]) s.cached s.snaps s.iter))
        | .ok Status.CACHE_AND_CONTINUE =>
          followLoop env fuel
            (VFState.mk
              (List.zipWith (fun qi di => qi + di * env.dt) s.q (env.fn_vectorfield s.q))
              (env.fn_vectorfield s.q)
              (s.qtraj ++ [Waypoint.mk s.q s.dqout env.dt])
              (some (s.qtraj ++ [Waypoint.mk s.q s.dqout env.dt]))
              (s.snaps ++ [s.qtraj ++ [Waypoint.mk s.q s.dqout env.dt]])
              (s.iter + 1))
        | .ok Status.CONTINUE =>
          followLoop env fuel
            (VFState.mk
              (List.zipWith (fun qi di => qi + di * env.dt) s.q (env.fn_vectorfield s.q))
              (env.fn_vectorfield s.q)
              (s.qtraj ++ [Waypoint.mk s.q s.dqout env.dt])
              s.cached s.snaps (s.iter + 1))

/-- The loop state at the start of a `FollowVectorField` run: current
configuration and velocities of the robot, empty trajectory, empty cache
slot (`cached_traj = None`). -/
def initState (r : Robot) : VFState :=
  VFState.mk r.q0 r.dq0 [] none [] 0

/-- Assemble the loop environment of a run: the oracles, the two callbacks,
`dq_tol`, and the timestep `dt` fixed once from the robot's resolutions and
velocity limits. -/
def mkEnv (r : Robot) (ext : ExtOracles) (fn_vf : List ℚ → List ℚ)
    (fn_term : List ℚ → Except PyError Status) (dqtol : ℚ) : VFEnv :=
  VFEnv.mk ext.timeoutAt ext.collisionAt ext.selfCollisionAt fn_vf fn_term dqtol (dtOf r)

/-- `FollowVectorField` (vectorfield.py lines 237-313): run the loop; at the
call boundary a `PlanningError` raised inside the loop is caught, and the run
returns the cached trajectory if the cache slot is non-null, else re-raises.
A normal `break` returns the full buffer. `none` means the fuel ran out. -/
def FollowVectorField (r : Robot) (ext : ExtOracles) (fn_vf : List ℚ → List ℚ)
    (fn_term : List ℚ → Except PyError Status) (dqtol : ℚ) (fuel : ℕ) :
    Option (Except PyError (List Waypoint)) :=
  match followLoop (mkEnv r ext fn_vf fn_term dqtol) fuel (initState r) with
  | none => none
  | some (.succeeded f) => some (.ok f.qtraj)
  | some (.failed e f) =>
    match f.cached with
    | some c => some (.ok c)
    | none => some (.error e)

/-- The scalar `min(abs(limits / dqout))` of vectorfield.py lines 83 and 147,
with numpy's IEEE division semantics: a component with `dqout i = 0` divides
a (positive) limit by zero, giving `+∞`, which never attains the minimum as
long as some component of `dqout` is nonzero. `none` renders `+∞` (every
component zero, or no components at all). -/
def minAbsScale : List ℚ → List ℚ → Option ℚ
  | L :: Ls, v :: vs =>
    if v = 0 then minAbsScale Ls vs
    else
      match minAbsScale Ls vs with
      | none => some |L / v|
      | some m => some (min |L / v| m)
  | _, _ => none

/-- The "go as fast as possible" rescaling `dqout = min(abs(limits/dqout)) *
dqout` shared by `vf_geodesic` and `vf_straightline`. When every component of
`dqout` is zero the source arithmetic produces a NaN vector; that corner is
rendered as the zero vector (the claims about this operation assume a nonzero
input). -/
def rescaleToLimits (limits dq : List ℚ) : List ℚ :=
  match minAbsScale limits dq with
  | some c => dq.map (fun x => c * x)
  | none => dq.map (fun _ => 0)

/-- `vf_geodesic` (vectorfield.py lines 77-85). The geodesic twist toward the
goal pose and the Jacobian-based conversion to joint velocities live in the
external `prpy.util`; their composite is the oracle `jvsolve` from the
current configuration. The generator then rescales to the velocity limits. -/
def vf_geodesic (limits : List ℚ) (jvsolve : List ℚ → List ℚ) (q : List ℚ) : List ℚ :=
  rescaleToLimits limits (jvsolve q)

/-- `vf_straightline` (vectorfield.py lines 139-148). The twist toward the
start pose with its linear part overwritten by the fixed direction, converted
through the external Jacobian solve, is the oracle `jvsolve` of the current
configuration; the generator then rescales to the velocity limits exactly as
`vf_geodesic` does. -/
def vf_straightline (limits : List ℚ) (jvsolve : List ℚ → List ℚ) (q : List ℚ) : List ℚ :=
  rescaleToLimits limits (jvsolve q)

/-- `CloseEnough` (vectorfield.py lines 87-93): TERMINATE when the geodesic
pose error is below the tolerance, else CONTINUE. `pose_error` is supplied by
the external `prpy.util.GeodesicDistance`. -/
def CloseEnough (pose_error pose_error_tol : ℚ) : Status :=
  if pose_error < pose_error_tol then Status.TERMINATE else Status.CONTINUE

/-- `PlanToEndEffectorPose` (vectorfield.py lines 62-96): build `vf_geodesic`
and `CloseEnough` for the goal pose and delegate to `FollowVectorField`.
`poseErr q` is the external geodesic distance between the end-effector pose
at configuration `q` and the goal pose. -/
def PlanToEndEffectorPose (r : Robot) (ext : ExtOracles) (jvsolve : List ℚ → List ℚ)
    (poseErr : List ℚ → ℚ) (pose_error_tol dqtol : ℚ) (fuel : ℕ) :
    Option (Except PyError (List Waypoint)) :=
  FollowVectorField r ext (vf_geodesic r.velLimits jvsolve)
    (fun q => Except.ok (CloseEnough (poseErr q) pose_error_tol)) dqtol fuel

/-- `distance_moved = numpy.dot(error[0:3], direction)` (vectorfield.py line
160). -/
def distanceMoved (perr direction : List ℚ) : ℚ := dotQ perr direction

/-- The residual `error[0:3] - distance_moved * direction` whose norm is the
`position_deviation` of vectorfield.py line 161. -/
def residualOf (perr direction : List ℚ) : List ℚ :=
  List.zipWith (fun p d => p - distanceMoved perr direction * d) perr direction

/-- `TerminateMove` (vectorfield.py lines 150-172), as a function of the
captured references (normalized direction, distance, max_distance,
tolerances) and of the geodesic error from the start pose delivered by the
external `prpy.util.GeodesicError`: `perr` is its position part `error[0:3]`
and `eang` its orientation magnitude `error[3]`. -/
def TerminateMove (direction : List ℚ) (distance max_distance position_tolerance angular_tolerance : ℚ)
    (perr : List ℚ) (eang : ℚ) : Except PyError Status :=
  if |eang| > angular_tolerance then
    Except.error (PyError.planningError "Deviated from orientation constraint.")
  else if normGt (residualOf perr direction) position_tolerance then
    Except.error (PyError.planningError "Deviated from straight line constraint.")
  else if distanceMoved perr direction > max_distance then
    Except.ok Status.TERMINATE
  else if distanceMoved perr direction > distance then
    Except.ok Status.CACHE_AND_CONTINUE
  else
    Except.ok Status.CONTINUE

/-- Whether `max_distance < distance` for an optional `max_distance`
(`max_distance is not None and max_distance < distance`). -/
def maxLtDist (maxd : Option ℚ) (distance : ℚ) : Bool :=
  match maxd with
  | some md => decide (md < distance)
  | none => false

/-- The disjunction of the five invalid-argument conditions checked by
`PlanToEndEffectorOffset` (vectorfield.py lines 117-126). -/
def invalidOffsetArgs (direction : List ℚ) (distance : ℚ) (maxd : Option ℚ)
    (position_tolerance angular_tolerance : ℚ) : Bool :=
  decide (distance < 0) || decide (normSq direction = 0) || maxLtDist maxd distance ||
    decide (position_tolerance < 0) || decide (angular_tolerance < 0)

/-- The validation-and-setup stage of `PlanToEndEffectorOffset`
(vectorfield.py lines 117-134): the five `ValueError` checks in source
order, then normalization of the direction to unit length and defaulting of
`max_distance` to `distance`. Returns the normalized direction and the
effective `max_distance`. The zero-norm test `numpy.linalg.norm(direction)
== 0` is rendered exactly as `‖direction‖² = 0`. -/
def offsetSetup (direction : List ℚ) (distance : ℚ) (maxd : Option ℚ)
    (position_tolerance angular_tolerance : ℚ) : Except PyError (List ℚ × ℚ) :=
  if distance < 0 then
    Except.error (PyError.valueError "Distance must be non-negative.")
  else if normSq direction = 0 then
    Except.error (PyError.valueError "Direction must be non-zero")
  else if maxLtDist maxd distance then
    Except.error (PyError.valueError "Max distance is less than minimum distance.")
  else if position_tolerance < 0 then
    Except.error (PyError.valueError "Position tolerance must be non-negative.")
  else if angular_tolerance < 0 then
    Except.error (PyError.valueError "Angular tolerance must be non-negative.")
  else
    Except.ok (direction.map (fun x => x / ratSqrt (normSq direction)), maxd.getD distance)

/-- `PlanToEndEffectorOffset` (vectorfield.py lines 98-175): validate and
normalize, then build `vf_straightline` and `TerminateMove` bound to the
captured start pose and delegate to `FollowVectorField`. `geoPos q` and
`geoAng q` are the position part and orientation magnitude of the external
`GeodesicError(Tstart, Tnow)` at configuration `q`. -/
def PlanToEndEffectorOffset (r : Robot) (ext : ExtOracles) (jvsolve : List ℚ → List ℚ)
    (geoPos : List ℚ → List ℚ) (geoAng : List ℚ → ℚ) (direction : List ℚ) (distance : ℚ)
    (maxd : Option ℚ) (position_tolerance angular_tolerance dqtol : ℚ) (fuel : ℕ) :
    Option (Except PyError (List Waypoint)) :=
  match offsetSetup direction distance maxd position_tolerance angular_tolerance with
  | .error e => some (.error e)
  | .ok (dirU, max_distance) =>
    FollowVectorField r ext (vf_straightline r.velLimits jvsolve)
      (fun q => TerminateMove dirU distance max_distance position_tolerance angular_tolerance
        (geoPos q) (geoAng q)) dqtol fuel

/-- A TSR chain as `PlanToTSR` consumes it: the three constraint flags and
the goal-sampling capability. `sample n` is the pose produced by the chain's
n-th `sample()` call. -/
structure TSRChain (G : Type) where
  sample_start : Bool
  constrain : Bool
  sample_goal : Bool
  sample : ℕ → G

/-- The sampling loop of `PlanToTSR` (vectorfield.py lines 213-234): cycle
round-robin through the goal-sampling chains until the deadline oracle fires
(`timeUp k` is `time.time() >= timelimit_time` before attempt `k`; an empty
chain list makes `itertools.cycle` yield nothing, reaching the final raise at
once). Each attempt draws one sample and invokes the pose planner, modelled
by the oracle `attempt`; a `PlanningError` (or its subclass) is swallowed and
sampling continues, any other exception propagates, a success returns
immediately. The second component of the result accumulates every sample
drawn, in order. -/
def tsrLoop {G : Type} (filtered : List (TSRChain G)) (timeUp : ℕ → Bool)
    (attempt : G → Except PyError (List Waypoint)) :
    ℕ → ℕ → List G → Option (Except PyError (List Waypoint) × List G)
  | 0, _, _ => none
  | fuel + 1, k, acc =>
    if timeUp k then
      some (.error (.planningError "Reached timeout without finding solution"), acc)
    else
      match filtered with
      | [] => some (.error (.planningError "Reached timeout without finding solution"), acc)
      | c :: cs =>
        match attempt (((c :: cs).get ⟨k % (c :: cs).length,
            Nat.mod_lt k (Nat.succ_pos cs.length)⟩).sample (k / (c :: cs).length)) with
        | .ok traj =>
          some (.ok traj, acc ++ [((c :: cs).get ⟨k % (c :: cs).length,
            Nat.mod_lt k (Nat.succ_pos cs.length)⟩).sample (k / (c :: cs).length)])
        | .error (.valueError m) =>
          some (.error (.valueError m), acc ++ [((c :: cs).get ⟨k % (c :: cs).length,
            Nat.mod_lt k (Nat.succ_pos cs.length)⟩).sample (k / (c :: cs).length)])
        | .error (.planningError _) =>
          tsrLoop filtered timeUp attempt fuel (k + 1)
            (acc ++ [((c :: cs).get ⟨k % (c :: cs).length,
              Nat.mod_lt k (Nat.succ_pos cs.length)⟩).sample (k / (c :: cs).length)])
        | .error (.unsupportedPlanningError _) =>
          tsrLoop filtered timeUp attempt fuel (k + 1)
            (acc ++ [((c :: cs).get ⟨k % (c :: cs).length,
              Nat.mod_lt k (Nat.succ_pos cs.length)⟩).sample (k / (c :: cs).length)])

/-- `PlanToTSR` (vectorfield.py lines 177-234). A ranking function is built
(the default `NominalConfiguration` ranker when none is supplied, an external
construction represented by `defaultRanker`) and bound to `_ranker`, which no
later statement reads — exactly as in the source. Then every chain asking for
start-sampling or trajectory-wide constraints causes
`raise PlanningError(...)` (the base class: only `PlanningError` is imported
by vectorfield.py) before any sample is drawn; otherwise the goal-sampling
chains are filtered and the cyclic sampling loop runs. The result pairs the
Python return/raise with the list of samples drawn. -/
def PlanToTSR {G R : Type} (chains : List (TSRChain G)) (timeUp : ℕ → Bool)
    (attempt : G → Except PyError (List Waypoint)) (ranker : Option R) (defaultRanker : R)
    (fuel : ℕ) : Option (Except PyError (List Waypoint) × List G) :=
  let _ranker : R := ranker.getD defaultRanker
  if chains.any (fun c => c.sample_start || c.constrain) then
    some (.error (.planningError "Cannot handle start or trajectory-wide TSR constraints."), [])
  else
    tsrLoop (chains.filter (fun c => c.sample_goal)) timeUp attempt fuel 0 []

/-- Observer: whether a `PlanToTSR` result is a raised
`UnsupportedPlanningError`. -/
def resultUnsupported {G : Type} (res : Option (Except PyError (List Waypoint) × List G)) : Bool :=
  match res with
  | some (.error e, _) => isUnsupportedErr e
  | _ => false

/-- The lag-by-one law of the recorded velocities: the first waypoint records
the initial velocity estimate, and every later waypoint records the vector
field evaluated at the previous waypoint's configuration. -/
def velocityLag (dq0 : List ℚ) (vf : List ℚ → List ℚ) (traj : List Waypoint) : Prop :=
  (∀ w, traj.head? = some w → w.dq = dq0) ∧
    ∀ i w₁ w₂, traj[i]? = some w₁ → traj[i + 1]? = some w₂ → w₂.dq = vf w₁.q

/-- Loop invariant of `followLoop`, from which every per-run property is
read off at the final state: the cache slot holds exactly the most recent
snapshot; every snapshot is a prefix of the buffer; every waypoint carries
the run's fixed `dt`; the recorded velocities obey the lag-by-one law; and
`dqout` is the initial estimate while the buffer is empty, afterwards the
field value at the last recorded configuration. -/
def StateInv (env : VFEnv) (dq0 : List ℚ) (s : VFState) : Prop :=
  s.cached = s.snaps.getLast? ∧
  (∀ t ∈ s.snaps, t <+: s.qtraj) ∧
  (∀ w ∈ s.qtraj, w.dt = env.dt) ∧
  velocityLag dq0 env.fn_vectorfield s.qtraj ∧
  (s.qtraj = [] → s.dqout = dq0) ∧
  (∀ w, s.qtraj.getLast? = some w → s.dqout = env.fn_vectorfield w.q)

/-- An environment whose termination callback can never ask for caching. -/
def EnvNoCache (env : VFEnv) : Prop :=
  ∀ q, env.fn_terminate q ≠ Except.ok Status.CACHE_AND_CONTINUE

/-- A one-joint test robot: at the origin, at rest, resolution 1, velocity
limit 1 (so the run's timestep is 1). -/
def rW : Robot := Robot.mk [0] [0] [1] [1]

/-- Oracles for a run whose time limit expires at the start of iteration 2,
with no collisions. -/
def extTimeout2 : ExtOracles :=
  ExtOracles.mk (fun n => decide (2 ≤ n)) (fun _ => false) (fun _ => false)

/-- Oracles for a run whose time limit has already expired at iteration 0. -/
def extTimeout0 : ExtOracles :=
  ExtOracles.mk (fun _ => true) (fun _ => false) (fun _ => false)

/-- A constant unit vector field on the one-joint robot. -/
def vfW : List ℚ → List ℚ := fun _ => [1]

/-- A termination callback that caches at every evaluation. -/
def ftCacheW : List ℚ → Except PyError Status :=
  fun _ => Except.ok Status.CACHE_AND_CONTINUE

/-- First waypoint of the `rW`/`vfW`/`ftCacheW` test run. -/
def wp0 : Waypoint := Waypoint.mk [0] [0] 1

/-- Second waypoint of the `rW`/`vfW`/`ftCacheW` test run. -/
def wp1 : Waypoint := Waypoint.mk [1] [1] 1

/-- The loop state at which the `rW`/`extTimeout2`/`vfW`/`ftCacheW` run hits
its time limit. -/
def fW : VFState :=
  VFState.mk [2] [1] [wp0, wp1] (some [wp0, wp1]) [[wp0], [wp0, wp1]] 2

/-- A TSR chain that requests start sampling (and goal sampling). -/
def chainBad : TSRChain ℕ := TSRChain.mk true false true (fun _ => 0)

/-! ## Helper lemmas -/

theorem normSq_cons (x : ℚ) (l : List ℚ) : normSq (x :: l) = x * x + normSq l := by
  simp [normSq, dotQ]

theorem normSq_nonneg (v : List ℚ) : 0 ≤ normSq v := by
  induction v with
  | nil => simp [normSq, dotQ]
  | cons x xs ih => rw [normSq_cons]; exact add_nonneg (mul_self_nonneg x) ih

/-- Sanity of the squared-norm encoding: `normLt v t` holds exactly when the
real Euclidean norm `√(‖v‖²)` is below `t`. -/
theorem normLt_iff_sqrt (v : List ℚ) (t : ℚ) :
    normLt v t = true ↔ Real.sqrt ((normSq v : ℚ) : ℝ) < (t : ℝ) := by
  unfold normLt
  rw [Bool.and_eq_true, decide_eq_true_eq, decide_eq_true_eq]
  constructor
  · rintro ⟨ht, hlt⟩
    have ht' : (0 : ℝ) < (t : ℚ) := by exact_mod_cast ht
    refine (Real.sqrt_lt' ht').mpr ?_
    rw [sq]
    exact_mod_cast hlt
  · intro h
    have ht' : (0 : ℝ) < (t : ℚ) := lt_of_le_of_lt (Real.sqrt_nonneg _) h
    have hlt := (Real.sqrt_lt' ht').mp h
    rw [sq] at hlt
    constructor
    · exact_mod_cast ht'
    · exact_mod_cast hlt

/-- Sanity of the squared-norm encoding: `normGt v t` holds exactly when the
real Euclidean norm `√(‖v‖²)` exceeds `t`. -/
theorem normGt_iff_sqrt (v : List ℚ) (t : ℚ) :
    normGt v t = true ↔ (t : ℝ) < Real.sqrt ((normSq v : ℚ) : ℝ) := by
  unfold normGt
  rw [Bool.or_eq_true, decide_eq_true_eq, decide_eq_true_eq]
  have hnn : (0 : ℝ) ≤ ((normSq v : ℚ) : ℝ) := by exact_mod_cast normSq_nonneg v
  constructor
  · rintro (ht | hlt)
    · have ht' : ((t : ℚ) : ℝ) < 0 := by exact_mod_cast ht
      exact lt_of_lt_of_le ht' (Real.sqrt_nonneg _)
    · have hlt' : ((t * t : ℚ) : ℝ) < ((normSq v : ℚ) : ℝ) := by exact_mod_cast hlt
      rcases le_or_lt 0 (t : ℚ) with ht0 | ht0
      · refine (Real.lt_sqrt (by exact_mod_cast ht0)).mpr ?_
        rw [sq]
        push_cast at hlt'
        exact hlt'
      · exact lt_of_lt_of_le (by exact_mod_cast ht0) (Real.sqrt_nonneg _)
  · intro h
    rcases lt_or_le t 0 with ht0 | ht0
    · exact Or.inl ht0
    · right
      have hsq := (Real.lt_sqrt (by exact_mod_cast ht0)).mp h
      rw [sq] at hsq
      exact_mod_cast hsq

/-- `ratSqrt` inverts squaring on nonnegative rationals. -/
theorem ratSqrt_mul_self (s : ℚ) (hs : 0 ≤ s) : ratSqrt (s * s) = s := by
  have hnum : 0 ≤ s.num := Rat.num_nonneg.mpr hs
  unfold ratSqrt
  rw [Rat.mul_self_num, Rat.mul_self_den]
  obtain ⟨n, hn⟩ : ∃ n : ℕ, s.num = (n : ℤ) := ⟨s.num.toNat, (Int.toNat_of_nonneg hnum).symm⟩
  rw [hn]
  have h1 : ((n : ℤ) * (n : ℤ)).toNat = n * n := by
    rw [← Int.natCast_mul, Int.toNat_natCast]
  rw [h1, Nat.sqrt_eq, Nat.sqrt_eq]
  have h2 : ((s.num : ℚ)) / ((s.den : ℚ)) = s := Rat.num_div_den s
  rw [hn] at h2
  have h3 : (((n : ℤ) : ℚ)) = (n : ℚ) := by push_cast; rfl
  rw [h3] at h2
  exact h2

theorem normSq_map_div (l : List ℚ) (s : ℚ) :
    normSq (l.map (fun x => x / s)) = normSq l / (s * s) := by
  induction l with
  | nil => simp [normSq, dotQ]
  | cons x xs ih =>
    rw [List.map_cons, normSq_cons, normSq_cons, ih, div_mul_div_comm, div_add_div_same]

/-- Appending the waypoint of the current iteration preserves the lag-by-one
law, provided the carried `dqout` is the initial estimate (empty buffer) or
the field value at the last recorded configuration. -/
theorem velocityLag_append (dq0 : List ℚ) (vf : List ℚ → List ℚ) (traj : List Waypoint)
    (qc dq : List ℚ) (d : ℚ)
    (h1 : velocityLag dq0 vf traj)
    (h2 : traj = [] → dq = dq0)
    (h3 : ∀ w, traj.getLast? = some w → dq = vf w.q) :
    velocityLag dq0 vf (traj ++ [Waypoint.mk qc dq d]) := by
  constructor
  · intro w hw
    cases traj with
    | nil =>
      simp only [List.nil_append, List.head?_cons, Option.some.injEq] at hw
      rw [← hw]
      exact h2 rfl
    | cons a l =>
      simp only [List.cons_append, List.head?_cons, Option.some.injEq] at hw
      exact h1.1 w (by rw [List.head?_cons, hw])
  · intro i w₁ w₂ hi hi1
    by_cases hlt : i + 1 < traj.length
    · rw [List.getElem?_append, if_pos (by omega)] at hi
      rw [List.getElem?_append, if_pos hlt] at hi1
      exact h1.2 i w₁ w₂ hi hi1
    · by_cases heq : i + 1 = traj.length
      · rw [List.getElem?_append, if_pos (by omega)] at hi
        rw [List.getElem?_append, if_neg (by omega)] at hi1
        rw [show i + 1 - traj.length = 0 by omega] at hi1
        simp only [List.getElem?_cons_zero, Option.some.injEq] at hi1
        have hlast : traj.getLast? = some w₁ := by
          rw [List.getLast?_eq_getElem?, show traj.length - 1 = i by omega]
          exact hi
        rw [← hi1]
        exact h3 w₁ hlast
      · rw [List.getElem?_append, if_neg (by omega)] at hi1
        rw [List.getElem?_eq_none (by simp; omega)] at hi1
        exact absurd hi1 (by simp)

/-- The loop invariant holds at the start of a run. -/
theorem stateInv_init (env : VFEnv) (r : Robot) : StateInv env r.dq0 (initState r) := by
  refine ⟨rfl, ?_, ?_, ⟨?_, ?_⟩, fun _ => rfl, ?_⟩ <;> simp [initState, velocityLag]

/-- The loop invariant survives appending the current iteration's waypoint
and overwriting `dqout` with the freshly computed field value (the state
shape of the stall/constraint failures, of the TERMINATE exit, and of the
CONTINUE step, for any new configuration and iteration counter). -/
theorem stateInv_append (env : VFEnv) (dq0 : List ℚ) (s : VFState) (qn : List ℚ) (it : ℕ)
    (h : StateInv env dq0 s) :
    StateInv env dq0 (VFState.mk qn (env.fn_vectorfield s.q)
      (s.qtraj ++ [Waypoint.mk s.q s.dqout env.dt]) s.cached s.snaps it) := by
  obtain ⟨hc, hsn, hdt, hlag, he, hl⟩ := h
  refine ⟨hc, ?_, ?_, ?_, ?_, ?_⟩
  · intro t ht
    exact (hsn t ht).trans (List.prefix_append _ _)
  · intro w hw
    rcases List.mem_append.mp hw with h' | h'
    · exact hdt w h'
    · rw [List.mem_singleton] at h'
      rw [h']
  · exact velocityLag_append dq0 env.fn_vectorfield s.qtraj s.q s.dqout env.dt hlag he hl
  · intro habs
    exact absurd habs (by simp)
  · intro w hw
    rw [List.getLast?_concat] at hw
    injection hw with hw
    rw [← hw]

/-- The loop invariant survives a CACHE_AND_CONTINUE step: the waypoint is
appended, the cache slot receives a copy of the new buffer, and the snapshot
history grows by that same buffer. -/
theorem stateInv_append_cache (env : VFEnv) (dq0 : List ℚ) (s : VFState) (qn : List ℚ) (it : ℕ)
    (h : StateInv env dq0 s) :
    StateInv env dq0 (VFState.mk qn (env.fn_vectorfield s.q)
      (s.qtraj ++ [Waypoint.mk s.q s.dqout env.dt])
      (some (s.qtraj ++ [Waypoint.mk s.q s.dqout env.dt]))
      (s.snaps ++ [s.qtraj ++ [Waypoint.mk s.q s.dqout env.dt]]) it) := by
  obtain ⟨hc, hsn, hdt, hlag, he, hl⟩ := h
  have hbase := stateInv_append env dq0 s qn it ⟨hc, hsn, hdt, hlag, he, hl⟩
  obtain ⟨_, hsn', hdt', hlag', he', hl'⟩ := hbase
  refine ⟨?_, ?_, hdt', hlag', he', hl'⟩
  · rw [List.getLast?_concat]
  · intro t ht
    rcases List.mem_append.mp ht with h' | h'
    · exact hsn' t h'
    · rw [List.mem_singleton] at h'
      rw [h']

/-- Master induction over the loop: a completed run (success or failure)
preserves the loop invariant from entry state to final state, only ever
appends to the trajectory buffer, and never fills the cache slot if the
termination callback cannot ask for caching. -/
theorem followLoop_main (env : VFEnv) (dq0 : List ℚ) :
    ∀ (fuel : ℕ) (s : VFState) (out : LoopOut), followLoop env fuel s = some out →
      (StateInv env dq0 s → StateInv env dq0 (finalOf out)) ∧
      s.qtraj <+: (finalOf out).qtraj ∧
      (EnvNoCache env → s.cached = none → (finalOf out).cached = none) := by
  intro fuel
  induction fuel with
  | zero =>
    intro s out h
    simp [followLoop] at h
  | succ n ih =>
    intro s out h
    rw [followLoop] at h
    split at h
    · injection h with h'
      rw [← h']
      exact ⟨fun hs => hs, List.prefix_rfl, fun _ hc => hc⟩
    · split at h
      · injection h with h'
        rw [← h']
        exact ⟨fun hs => hs, List.prefix_rfl, fun _ hc => hc⟩
      · split at h
        · injection h with h'
          rw [← h']
          exact ⟨fun hs => hs, List.prefix_rfl, fun _ hc => hc⟩
        · split at h
          · injection h with h'
            rw [← h']
            exact ⟨fun hs => stateInv_append env dq0 s s.q s.iter hs,
              List.prefix_append _ _, fun _ hc => hc⟩
          · split at h
            · injection h with h'
              rw [← h']
              exact ⟨fun hs => stateInv_append env dq0 s s.q s.iter hs,
                List.prefix_append _ _, fun _ hc => hc⟩
            · injection h with h'
              rw [← h']
              exact ⟨fun hs => stateInv_append env dq0 s s.q s.iter hs,
                List.prefix_append _ _, fun _ hc => hc⟩
            · rename_i heq
              obtain ⟨ih1, ih2, ih3⟩ := ih _ out h
              refine ⟨fun hs => ih1 (stateInv_append_cache env dq0 s _ _ hs),
                (List.prefix_append _ _).trans ih2, ?_⟩
              intro hnc _
              exact absurd heq (hnc s.q)
            · obtain ⟨ih1, ih2, ih3⟩ := ih _ out h
              exact ⟨fun hs => ih1 (stateInv_append env dq0 s _ _ hs),
                (List.prefix_append _ _).trans ih2, fun hnc hc => ih3 hnc hc⟩

theorem minAbsScale_nonneg : ∀ (L v : List ℚ) (c : ℚ), minAbsScale L v = some c → 0 ≤ c := by
  intro L
  induction L with
  | nil =>
    intro v c h
    simp [minAbsScale] at h
  | cons a as ih =>
    intro v c h
    cases v with
    | nil => simp [minAbsScale] at h
    | cons b bs =>
      simp only [minAbsScale] at h
      by_cases hb : b = 0
      · rw [if_pos hb] at h
        exact ih bs c h
      · rw [if_neg hb] at h
        cases hrest : minAbsScale as bs with
        | none =>
          rw [hrest] at h
          injection h with h
          rw [← h]
          exact abs_nonneg _
        | some m =>
          rw [hrest] at h
          injection h with h
          rw [← h]
          exact le_min (abs_nonneg _) (ih bs m hrest)

theorem minAbsScale_none_zero : ∀ (L v : List ℚ), minAbsScale L v = none →
    ∀ i (hL : i < L.length) (hv : i < v.length), v[i] = 0 := by
  intro L
  induction L with
  | nil =>
    intro v _ i hL _
    simp at hL
  | cons a as ih =>
    intro v h i hL hv
    cases v with
    | nil => simp at hv
    | cons b bs =>
      simp only [minAbsScale] at h
      by_cases hb : b = 0
      · rw [if_pos hb] at h
        cases i with
        | zero => simpa using hb
        | succ j =>
          simp only [List.getElem_cons_succ]
          exact ih bs h j (by simpa using hL) (by simpa using hv)
      · rw [if_neg hb] at h
        cases hrest : minAbsScale as bs with
        | none => rw [hrest] at h; exact absurd h (by simp)
        | some m => rw [hrest] at h; exact absurd h (by simp)

theorem minAbsScale_isSome : ∀ (L v : List ℚ), L.length = v.length → (∃ x ∈ v, x ≠ 0) →
    ∃ c, minAbsScale L v = some c := by
  intro L
  induction L with
  | nil =>
    intro v hlen hex
    obtain ⟨x, hx, _⟩ := hex
    cases v with
    | nil => simp at hx
    | cons b bs => simp at hlen
  | cons a as ih =>
    intro v hlen hex
    cases v with
    | nil =>
      obtain ⟨x, hx, _⟩ := hex
      simp at hx
    | cons b bs =>
      simp only [minAbsScale]
      by_cases hb : b = 0
      · rw [if_pos hb]
        apply ih bs (by simpa using hlen)
        obtain ⟨x, hx, hx0⟩ := hex
        rcases List.mem_cons.mp hx with h' | h'
        · exact absurd (h'.trans hb) hx0
        · exact ⟨x, h', hx0⟩
      · rw [if_neg hb]
        cases hrest : minAbsScale as bs with
        | none => exact ⟨_, rfl⟩
        | some m => exact ⟨_, rfl⟩

theorem minAbsScale_le : ∀ (L v : List ℚ) (c : ℚ), minAbsScale L v = some c →
    ∀ i (hL : i < L.length) (hv : i < v.length), v[i] ≠ 0 → c ≤ |L[i] / v[i]| := by
  intro L
  induction L with
  | nil =>
    intro v c h
    simp [minAbsScale] at h
  | cons a as ih =>
    intro v c h i hL hv hvi
    cases v with
    | nil => simp [minAbsScale] at h
    | cons b bs =>
      simp only [minAbsScale] at h
      by_cases hb : b = 0
      · rw [if_pos hb] at h
        cases i with
        | zero => exact absurd (by simpa using hb) hvi
        | succ j =>
          simp only [List.getElem_cons_succ]
          exact ih bs c h j (by simpa using hL) (by simpa using hv) (by simpa using hvi)
      · rw [if_neg hb] at h
        cases hrest : minAbsScale as bs with
        | none =>
          rw [hrest] at h
          injection h with h
          cases i with
          | zero =>
            simp only [List.getElem_cons_zero]
            rw [← h]
          | succ j =>
            have := minAbsScale_none_zero as bs hrest j (by simpa using hL) (by simpa using hv)
            exact absurd (by simpa using this) hvi
        | some m =>
          rw [hrest] at h
          injection h with h
          cases i with
          | zero =>
            simp only [List.getElem_cons_zero]
            rw [← h]
            exact min_le_left _ _
          | succ j =>
            simp only [List.getElem_cons_succ]
            calc c ≤ m := by rw [← h]; exact min_le_right _ _
              _ ≤ _ := ih bs m hrest j (by simpa using hL) (by simpa using hv) (by simpa using hvi)

theorem minAbsScale_mem : ∀ (L v : List ℚ) (c : ℚ), minAbsScale L v = some c →
    ∃ i, ∃ (hL : i < L.length) (hv : i < v.length), v[i] ≠ 0 ∧ c = |L[i] / v[i]| := by
  intro L
  induction L with
  | nil =>
    intro v c h
    simp [minAbsScale] at h
  | cons a as ih =>
    intro v c h
    cases v with
    | nil => simp [minAbsScale] at h
    | cons b bs =>
      simp only [minAbsScale] at h
      by_cases hb : b = 0
      · rw [if_pos hb] at h
        obtain ⟨j, hL, hv, hj0, hjeq⟩ := ih bs c h
        exact ⟨j + 1, by simpa using hL, by simpa using hv, by simpa using hj0, by simpa using hjeq⟩
      · rw [if_neg hb] at h
        cases hrest : minAbsScale as bs with
        | none =>
          rw [hrest] at h
          injection h with h
          exact ⟨0, by simp, by simp, by simpa using hb, by simpa using h.symm⟩
        | some m =>
          rw [hrest] at h
          injection h with h
          rcases min_cases |a / b| m with ⟨hmin, _⟩ | ⟨hmin, _⟩
          · refine ⟨0, by simp, by simp, by simpa using hb, ?_⟩
            simp only [List.getElem_cons_zero]
            rw [← h, hmin]
          · obtain ⟨j, hL, hv, hj0, hjeq⟩ := ih bs m hrest
            refine ⟨j + 1, by simpa using hL, by simpa using hv, by simpa using hj0, ?_⟩
            simp only [List.getElem_cons_succ]
            rw [← h, hmin]
            exact hjeq

/-! ## Claim theorems -/

/-- Claim C1: in every run of `FollowVectorField` that fails inside the loop
(timeout, collision, self-collision, stall, or constraint violation), the
cache slot equals the most recent CACHE_AND_CONTINUE snapshot; if no
CACHE_AND_CONTINUE evaluation occurred (`snaps = []`) the same failure
propagates to the caller unchanged, and otherwise the call returns the buffer
copied at the most recent CACHE_AND_CONTINUE evaluation, which is a prefix of
the buffer at failure time. -/
theorem followVectorField_cache_on_failure (r : Robot) (ext : ExtOracles)
    (fn_vf : List ℚ → List ℚ) (fn_term : List ℚ → Except PyError Status) (dqtol : ℚ)
    (fuel : ℕ) (e : PyError) (f : VFState)
    (h : followLoop (mkEnv r ext fn_vf fn_term dqtol) fuel (initState r)
      = some (LoopOut.failed e f)) :
    f.cached = f.snaps.getLast? ∧
    (f.snaps = [] → FollowVectorField r ext fn_vf fn_term dqtol fuel = some (Except.error e)) ∧
    (∀ c, f.snaps.getLast? = some c →
      FollowVectorField r ext fn_vf fn_term dqtol fuel = some (Except.ok c) ∧ c <+: f.qtraj) := by
  have hmain := followLoop_main (mkEnv r ext fn_vf fn_term dqtol) r.dq0 fuel (initState r)
    (LoopOut.failed e f) h
  have hinv := hmain.1 (stateInv_init _ r)
  obtain ⟨hc, hsn, _, _, _, _⟩ := hinv
  simp only [finalOf] at hc hsn
  refine ⟨hc, ?_, ?_⟩
  · intro hnil
    have hnone : f.cached = none := by rw [hc, hnil]; rfl
    simp only [FollowVectorField, h, hnone]
  · intro c hcl
    have hcached : f.cached = some c := by rw [hc, hcl]
    constructor
    · simp only [FollowVectorField, h, hcached]
    · exact hsn c (List.mem_of_mem_getLast? hcl)

/-- Claim C1 witness: a concrete run (one joint, constant field, caching
evaluator, timeout at iteration 2) fails after two CACHE_AND_CONTINUE
evaluations and returns the cached two-waypoint buffer. -/
theorem followVectorField_cache_on_failure_witness :
    FollowVectorField rW extTimeout2 vfW ftCacheW (1 / 10000) 3 = some (Except.ok [wp0, wp1]) ∧
    [wp0, wp1] <+: fW.qtraj :=
  (followVectorField_cache_on_failure rW extTimeout2 vfW ftCacheW (1 / 10000) 3
    (PyError.planningError "Reached time limit.") fW (by norm_num [followLoop, mkEnv, initState,
      rW, extTimeout2, vfW, ftCacheW, normLt, normSq, dotQ, dtOf, ratMin, wp0, wp1, fW])).2.2
    [wp0, wp1] rfl

/-- Claim C2: in every run of `FollowVectorField` the waypoint appended in an
iteration pairs the current configuration with the velocity from the previous
iteration — the first waypoint records the robot's initial velocity estimate,
and waypoint `i+1` records the vector field evaluated at waypoint `i`'s
configuration, so the velocity computed in the final iteration is never
recorded. -/
theorem followVectorField_velocity_lag (r : Robot) (ext : ExtOracles)
    (fn_vf : List ℚ → List ℚ) (fn_term : List ℚ → Except PyError Status) (dqtol : ℚ)
    (fuel : ℕ) (out : LoopOut)
    (h : followLoop (mkEnv r ext fn_vf fn_term dqtol) fuel (initState r) = some out) :
    velocityLag r.dq0 fn_vf (finalOf out).qtraj := by
  have hinv := (followLoop_main (mkEnv r ext fn_vf fn_term dqtol) r.dq0 fuel (initState r)
    out h).1 (stateInv_init _ r)
  exact hinv.2.2.2.1

/-- Claim C2 witness: the concrete two-iteration run records the initial
velocity in its first waypoint and the lagged field value in its second. -/
theorem followVectorField_velocity_lag_witness : velocityLag rW.dq0 vfW fW.qtraj :=
  followVectorField_velocity_lag rW extTimeout2 vfW ftCacheW (1 / 10000) 3
    (LoopOut.failed (PyError.planningError "Reached time limit.") fW) (by norm_num [followLoop,
      mkEnv, initState, rW, extTimeout2, vfW, ftCacheW, normLt, normSq, dotQ, dtOf, ratMin,
      wp0, wp1, fW])

/-- Claim C7: the timestep is fixed once per run as
`min(resolutions / velocity limits)`; every waypoint of the final buffer
carries exactly this `dt`, cumulative trajectory time grows by exactly this
constant between consecutive waypoints, and (waypoints being only appended)
every cached snapshot is a prefix of the final buffer. -/
theorem followVectorField_fixed_dt (r : Robot) (ext : ExtOracles)
    (fn_vf : List ℚ → List ℚ) (fn_term : List ℚ → Except PyError Status) (dqtol : ℚ)
    (fuel : ℕ) (out : LoopOut)
    (h : followLoop (mkEnv r ext fn_vf fn_term dqtol) fuel (initState r) = some out) :
    (∀ w ∈ (finalOf out).qtraj, w.dt = dtOf r) ∧
    (∀ i, i + 1 ≤ (finalOf out).qtraj.length →
      (((finalOf out).qtraj.take (i + 1)).map Waypoint.dt).sum
        = (((finalOf out).qtraj.take i).map Waypoint.dt).sum + dtOf r) ∧
    (∀ t ∈ (finalOf out).snaps, t <+: (finalOf out).qtraj) := by
  have hinv := (followLoop_main (mkEnv r ext fn_vf fn_term dqtol) r.dq0 fuel (initState r)
    out h).1 (stateInv_init _ r)
  obtain ⟨_, hsn, hdt, _, _, _⟩ := hinv
  refine ⟨hdt, ?_, hsn⟩
  intro i hi
  have hi' : i < ((finalOf out).qtraj.map Waypoint.dt).length := by
    rw [List.length_map]; omega
  rw [List.map_take, List.map_take, List.sum_take_succ _ i hi']
  have hmem : (finalOf out).qtraj[i] ∈ (finalOf out).qtraj :=
    List.getElem_mem (by omega)
  rw [List.getElem_map]
  rw [hdt _ hmem]
  rfl

/-- Claim C7 witness: in the concrete run both waypoints carry the timestep
`dt = 1`, cumulative time steps by 1, and both snapshots are prefixes. -/
theorem followVectorField_fixed_dt_witness :
    (∀ w ∈ fW.qtraj, w.dt = dtOf rW) ∧
    (∀ i, i + 1 ≤ fW.qtraj.length →
      ((fW.qtraj.take (i + 1)).map Waypoint.dt).sum
        = ((fW.qtraj.take i).map Waypoint.dt).sum + dtOf rW) ∧
    (∀ t ∈ fW.snaps, t <+: fW.qtraj) :=
  followVectorField_fixed_dt rW extTimeout2 vfW ftCacheW (1 / 10000) 3
    (LoopOut.failed (PyError.planningError "Reached time limit.") fW) (by norm_num [followLoop,
      mkEnv, initState, rW, extTimeout2, vfW, ftCacheW, normLt, normSq, dotQ, dtOf, ratMin,
      wp0, wp1, fW])

/-- Claim C10: the pose-reaching evaluator `CloseEnough` only ever returns
TERMINATE or CONTINUE, never CACHE_AND_CONTINUE; consequently in every
`PlanToEndEffectorPose` run the cache slot stays null and any failure raised
inside the loop propagates to the caller — a cached-success result is
unreachable for this operation. -/
theorem planToEndEffectorPose_no_cache :
    (∀ pe tol, CloseEnough pe tol = Status.TERMINATE ∨ CloseEnough pe tol = Status.CONTINUE) ∧
    ∀ (r : Robot) (ext : ExtOracles) (jvsolve : List ℚ → List ℚ) (poseErr : List ℚ → ℚ)
      (tol dqtol : ℚ) (fuel : ℕ) (e : PyError) (f : VFState),
      followLoop (mkEnv r ext (vf_geodesic r.velLimits jvsolve)
          (fun q => Except.ok (CloseEnough (poseErr q) tol)) dqtol) fuel (initState r)
        = some (LoopOut.failed e f) →
      f.cached = none ∧
      PlanToEndEffectorPose r ext jvsolve poseErr tol dqtol fuel = some (Except.error e) := by
  have hTC : ∀ pe tol, CloseEnough pe tol = Status.TERMINATE ∨
      CloseEnough pe tol = Status.CONTINUE := by
    intro pe tol
    unfold CloseEnough
    split
    · exact Or.inl rfl
    · exact Or.inr rfl
  refine ⟨hTC, ?_⟩
  intro r ext jvsolve poseErr tol dqtol fuel e f h
  have hnc : EnvNoCache (mkEnv r ext (vf_geodesic r.velLimits jvsolve)
      (fun q => Except.ok (CloseEnough (poseErr q) tol)) dqtol) := by
    intro q
    rcases hTC (poseErr q) tol with h' | h' <;> simp [mkEnv, h']
  have hnone := (followLoop_main (mkEnv r ext (vf_geodesic r.velLimits jvsolve)
    (fun q => Except.ok (CloseEnough (poseErr q) tol)) dqtol) r.dq0 fuel (initState r)
    (LoopOut.failed e f) h).2.2 hnc rfl
  refine ⟨hnone, ?_⟩
  simp only [PlanToEndEffectorPose, FollowVectorField, h]
  rw [show f.cached = none from hnone]

/-- Claim C10 witness: a concrete `PlanToEndEffectorPose` run that fails with
a timeout propagates the failure (its cache slot is still null). -/
theorem planToEndEffectorPose_no_cache_witness :
    (initState rW).cached = none ∧
    PlanToEndEffectorPose rW extTimeout0 vfW (fun _ => 1) (1 / 2) (1 / 10000) 1
      = some (Except.error (PyError.planningError "Reached time limit.")) :=
  planToEndEffectorPose_no_cache.2 rW extTimeout0 vfW (fun _ => 1) (1 / 2) (1 / 10000) 1
    (PyError.planningError "Reached time limit.") (initState rW)
    (by norm_num [followLoop, mkEnv, initState, rW, extTimeout0])

/-- Claim C3: the offset-constraint evaluator performs its checks in exactly
the source order — orientation-error bound first (constraint violation),
then straight-line deviation bound (constraint violation), then
`distance_moved > max_distance` (TERMINATE), then `distance_moved > distance`
(CACHE_AND_CONTINUE), otherwise CONTINUE. -/
theorem terminateMove_check_order (direction : List ℚ)
    (distance max_distance position_tolerance angular_tolerance : ℚ)
    (perr : List ℚ) (eang : ℚ) :
    (|eang| > angular_tolerance →
      TerminateMove direction distance max_distance position_tolerance angular_tolerance perr eang
        = Except.error (PyError.planningError "Deviated from orientation constraint.")) ∧
    (¬(|eang| > angular_tolerance) →
      normGt (residualOf perr direction) position_tolerance = true →
      TerminateMove direction distance max_distance position_tolerance angular_tolerance perr eang
        = Except.error (PyError.planningError "Deviated from straight line constraint.")) ∧
    (¬(|eang| > angular_tolerance) →
      normGt (residualOf perr direction) position_tolerance = false →
      distanceMoved perr direction > max_distance →
      TerminateMove direction distance max_distance position_tolerance angular_tolerance perr eang
        = Except.ok Status.TERMINATE) ∧
    (¬(|eang| > angular_tolerance) →
      normGt (residualOf perr direction) position_tolerance = false →
      ¬(distanceMoved perr direction > max_distance) →
      distanceMoved perr direction > distance →
      TerminateMove direction distance max_distance position_tolerance angular_tolerance perr eang
        = Except.ok Status.CACHE_AND_CONTINUE) ∧
    (¬(|eang| > angular_tolerance) →
      normGt (residualOf perr direction) position_tolerance = false →
      ¬(distanceMoved perr direction > max_distance) →
      ¬(distanceMoved perr direction > distance) →
      TerminateMove direction distance max_distance position_tolerance angular_tolerance perr eang
        = Except.ok Status.CONTINUE) := by
  refine ⟨fun h1 => ?_, fun h1 h2 => ?_, fun h1 h2 h3 => ?_,
    fun h1 h2 h3 h4 => ?_, fun h1 h2 h3 h4 => ?_⟩
  · unfold TerminateMove
    rw [if_pos h1]
  · unfold TerminateMove
    rw [if_neg h1, if_pos h2]
  · unfold TerminateMove
    rw [if_neg h1, if_neg (by simp [h2]), if_pos h3]
  · unfold TerminateMove
    rw [if_neg h1, if_neg (by simp [h2]), if_neg h3, if_pos h4]
  · unfold TerminateMove
    rw [if_neg h1, if_neg (by simp [h2]), if_neg h3, if_neg h4]

/-- Claim C3 witness: with unit direction `[1,0,0]`, position error `[2,0,0]`
and zero orientation error, `distance = max_distance = 1`: the constraint
checks pass, `distance_moved = 2 > 1`, and the evaluator says TERMINATE. -/
theorem terminateMove_check_order_witness :
    TerminateMove [1, 0, 0] 1 1 (1 / 100) (15 / 100) [2, 0, 0] 0 = Except.ok Status.TERMINATE :=
  (terminateMove_check_order [1, 0, 0] 1 1 (1 / 100) (15 / 100) [2, 0, 0] 0).2.2.1
    (by norm_num)
    (by norm_num [normGt, residualOf, distanceMoved, dotQ, normSq])
    (by norm_num [distanceMoved, dotQ])

/-- Claim C5 counterexample: with `distance = 0`, `max_distance = 0`, the
default tolerances, and the zero geodesic error of the very first evaluator
invocation (robot still at the start pose), `TerminateMove` returns CONTINUE,
not TERMINATE: the termination tests use strict inequalities and
`distance_moved = 0` is not greater than `max_distance = 0`. -/
theorem terminateMove_zero_distance_counterexample :
    TerminateMove [1, 0, 0] 0 0 (1 / 100) (15 / 100) [0, 0, 0] 0 = Except.ok Status.CONTINUE ∧
    TerminateMove [1, 0, 0] 0 0 (1 / 100) (15 / 100) [0, 0, 0] 0 ≠ Except.ok Status.TERMINATE := by
  constructor
  · norm_num [TerminateMove, residualOf, distanceMoved, dotQ, normGt, normSq]
  · norm_num [TerminateMove, residualOf, distanceMoved, dotQ, normGt, normSq]
    exact fun h => Status.noConfusion h

/-- Claim C5 (amended): for every call of the offset-constraint evaluator
with `distance = 0`, `max_distance = 0`, nonnegative tolerances, and the zero
geodesic error of its first invocation, the evaluator returns CONTINUE (the
strict comparisons make TERMINATE unreachable at zero distance moved). -/
theorem terminateMove_zero_distance_continues (direction : List ℚ) (pt ang : ℚ)
    (hpt : 0 ≤ pt) (hang : 0 ≤ ang) :
    TerminateMove direction 0 0 pt ang [0, 0, 0] 0 = Except.ok Status.CONTINUE := by
  have hdm : distanceMoved [0, 0, 0] direction = 0 := by
    rcases direction with _ | ⟨a, _ | ⟨b, _ | ⟨c, rest⟩⟩⟩ <;>
      simp [distanceMoved, dotQ]
  have hres : normSq (residualOf [0, 0, 0] direction) = 0 := by
    rcases direction with _ | ⟨a, _ | ⟨b, _ | ⟨c, rest⟩⟩⟩ <;>
      simp [residualOf, distanceMoved, dotQ, normSq]
  have h1 : ¬(|(0 : ℚ)| > ang) := by simpa using hang
  have h2 : normGt (residualOf [0, 0, 0] direction) pt = false := by
    rw [normGt, hres]
    simp only [Bool.or_eq_false_iff, decide_eq_false_iff_not, not_lt]
    exact ⟨hpt, mul_self_nonneg pt⟩
  have h3 : ¬(distanceMoved [0, 0, 0] direction > 0) := by
    rw [hdm]
    exact lt_irrefl 0
  unfold TerminateMove
  rw [if_neg h1, if_neg (by simp [h2]), if_neg h3, if_neg h3]

/-- Claim C5 witness: the amended statement at a concrete direction and the
default tolerances. -/
theorem terminateMove_zero_distance_continues_witness :
    TerminateMove [0, 1, 0] 0 0 (1 / 100) (15 / 100) [0, 0, 0] 0 = Except.ok Status.CONTINUE :=
  terminateMove_zero_distance_continues [0, 1, 0] (1 / 100) (15 / 100) (by norm_num) (by norm_num)

/-- Claim C6: `PlanToEndEffectorOffset` fails with a `ValueError` (before the
loop, hence before any motion) exactly when `distance < 0`, or the direction
has zero norm, or a supplied `max_distance` is below `distance`, or a
tolerance is negative; on valid arguments it normalizes the direction to unit
length and defaults `max_distance` to `distance`. -/
theorem planToEndEffectorOffset_validation (direction : List ℚ) (distance : ℚ)
    (maxd : Option ℚ) (pt ang : ℚ) :
    ((∃ m, offsetSetup direction distance maxd pt ang = Except.error (PyError.valueError m)) ↔
      invalidOffsetArgs direction distance maxd pt ang = true) ∧
    (invalidOffsetArgs direction distance maxd pt ang = true →
      ∀ (r : Robot) (ext : ExtOracles) (jvsolve : List ℚ → List ℚ) (geoPos : List ℚ → List ℚ)
        (geoAng : List ℚ → ℚ) (dqtol : ℚ) (fuel : ℕ),
        ∃ m, PlanToEndEffectorOffset r ext jvsolve geoPos geoAng direction distance maxd
          pt ang dqtol fuel = some (Except.error (PyError.valueError m))) ∧
    (∀ s : ℚ, 0 ≤ s → s * s = normSq direction →
      invalidOffsetArgs direction distance maxd pt ang = false →
      offsetSetup direction distance maxd pt ang
          = Except.ok (direction.map (fun x => x / s), maxd.getD distance) ∧
        normSq (direction.map (fun x => x / s)) = 1) := by
  have herr : invalidOffsetArgs direction distance maxd pt ang = true →
      ∃ m, offsetSetup direction distance maxd pt ang
        = Except.error (PyError.valueError m) := by
    intro hinv
    unfold offsetSetup
    by_cases h1 : distance < 0
    · exact ⟨_, by rw [if_pos h1]⟩
    simp only [if_neg h1]
    by_cases h2 : normSq direction = 0
    · exact ⟨_, by rw [if_pos h2]⟩
    simp only [if_neg h2]
    by_cases h3 : maxLtDist maxd distance = true
    · exact ⟨_, by rw [if_pos h3]⟩
    simp only [if_neg h3]
    by_cases h4 : pt < 0
    · exact ⟨_, by rw [if_pos h4]⟩
    simp only [if_neg h4]
    by_cases h5 : ang < 0
    · exact ⟨_, by rw [if_pos h5]⟩
    exfalso
    simp only [invalidOffsetArgs, Bool.or_eq_true, decide_eq_true_eq] at hinv
    rcases hinv with ((((h | h) | h) | h) | h)
    · exact h1 h
    · exact h2 h
    · exact h3 h
    · exact h4 h
    · exact h5 h
  have hvalid : invalidOffsetArgs direction distance maxd pt ang = false →
      offsetSetup direction distance maxd pt ang
        = Except.ok (direction.map (fun x => x / ratSqrt (normSq direction)),
            maxd.getD distance) := by
    intro hinv
    simp only [invalidOffsetArgs, Bool.or_eq_false_iff, decide_eq_false_iff_not] at hinv
    obtain ⟨⟨⟨⟨h1, h2⟩, h3⟩, h4⟩, h5⟩ := hinv
    unfold offsetSetup
    rw [if_neg h1, if_neg h2, if_neg (by simp [h3]), if_neg h4, if_neg h5]
  refine ⟨⟨?_, herr⟩, ?_, ?_⟩
  · rintro ⟨m, hm⟩
    by_contra hne
    have hfalse : invalidOffsetArgs direction distance maxd pt ang = false := by
      cases hb : invalidOffsetArgs direction distance maxd pt ang
      · rfl
      · exact absurd hb hne
    rw [hvalid hfalse] at hm
    exact absurd hm (by simp)
  · intro hinv r ext jvsolve geoPos geoAng dqtol fuel
    obtain ⟨m, hm⟩ := herr hinv
    exact ⟨m, by simp only [PlanToEndEffectorOffset, hm]⟩
  · intro s hs hsq hinv
    have hs0 : normSq direction ≠ 0 := by
      simp only [invalidOffsetArgs, Bool.or_eq_false_iff, decide_eq_false_iff_not] at hinv
      exact hinv.1.1.1.2
    have hsne : s ≠ 0 := by
      intro h0
      rw [h0, mul_zero] at hsq
      exact hs0 hsq.symm
    have hrs : ratSqrt (normSq direction) = s := by
      rw [← hsq, ratSqrt_mul_self s hs]
    constructor
    · rw [hvalid hinv, hrs]
    · rw [normSq_map_div, ← hsq]
      exact div_self (mul_ne_zero hsne hsne)

/-- Claim C6 witness: the direction `[3,4,0]` (norm 5), `distance = 1`, no
`max_distance`, default tolerances: validation passes, the direction is
normalized to unit length, and `max_distance` defaults to `distance`. -/
theorem planToEndEffectorOffset_validation_witness :
    offsetSetup [3, 4, 0] 1 none (1 / 100) (15 / 100)
        = Except.ok (([3, 4, 0] : List ℚ).map (fun x => x / 5), (none : Option ℚ).getD 1) ∧
    normSq (([3, 4, 0] : List ℚ).map (fun x => x / 5)) = 1 :=
  (planToEndEffectorOffset_validation [3, 4, 0] 1 none (1 / 100) (15 / 100)).2.2 5
    (by norm_num) (by norm_num [normSq, dotQ])
    (by norm_num [invalidOffsetArgs, maxLtDist, normSq, dotQ])

/-- Claim C8: the rescaling `min(abs(limits/dqout)) * dqout` shared by both
velocity-field generators multiplies a nonzero input vector by the
nonnegative scalar `min over joints of |limit i / v i|`, preserving
direction; every joint's output speed is then at most its (positive) limit,
and the most velocity-limited joint runs at exactly its limit. -/
theorem rescale_direction_and_limits (limits dq : List ℚ)
    (hlen : limits.length = dq.length)
    (hpos : ∀ L ∈ limits, 0 < L)
    (hnz : ∃ x ∈ dq, x ≠ 0) :
    ∃ c : ℚ, 0 ≤ c ∧
      rescaleToLimits limits dq = dq.map (fun x => c * x) ∧
      (∀ (jvsolve : List ℚ → List ℚ) (q : List ℚ),
        vf_geodesic limits jvsolve q = rescaleToLimits limits (jvsolve q) ∧
        vf_straightline limits jvsolve q = rescaleToLimits limits (jvsolve q)) ∧
      (∀ i (h1 : i < dq.length) (h2 : i < limits.length), |c * dq[i]| ≤ limits[i]) ∧
      (∃ i, ∃ (h1 : i < dq.length) (h2 : i < limits.length), |c * dq[i]| = limits[i]) := by
  obtain ⟨c, hc⟩ := minAbsScale_isSome limits dq hlen hnz
  have h0 : 0 ≤ c := minAbsScale_nonneg limits dq c hc
  refine ⟨c, h0, ?_, fun _ _ => ⟨rfl, rfl⟩, ?_, ?_⟩
  · unfold rescaleToLimits
    rw [hc]
  · intro i h1 h2
    by_cases hvi : dq[i] = 0
    · rw [hvi, mul_zero, abs_zero]
      exact le_of_lt (hpos _ (List.getElem_mem h2))
    · have hle := minAbsScale_le limits dq c hc i h2 h1 hvi
      calc |c * dq[i]| = c * |dq[i]| := by rw [abs_mul, abs_of_nonneg h0]
        _ ≤ |limits[i] / dq[i]| * |dq[i]| := mul_le_mul_of_nonneg_right hle (abs_nonneg _)
        _ = |limits[i] / dq[i] * dq[i]| := (abs_mul _ _).symm
        _ = |limits[i]| := by rw [div_mul_cancel₀ _ hvi]
        _ = limits[i] := abs_of_pos (hpos _ (List.getElem_mem h2))
  · obtain ⟨i, hL, hv, hvi, hceq⟩ := minAbsScale_mem limits dq c hc
    refine ⟨i, hv, hL, ?_⟩
    rw [hceq]
    calc |abs (limits[i] / dq[i]) * dq[i]|
        = abs (limits[i] / dq[i]) * |dq[i]| := by rw [abs_mul, abs_abs]
      _ = |limits[i] / dq[i] * dq[i]| := (abs_mul _ _).symm
      _ = |limits[i]| := by rw [div_mul_cancel₀ _ hvi]
      _ = limits[i] := abs_of_pos (hpos _ (List.getElem_mem hL))

/-- Claim C8 witness: limits `[2,3]`, raw velocities `[4,1]`: the scale is
`min(|2/4|, |3/1|) = 1/2`, joint 0 runs exactly at its limit. -/
theorem rescale_direction_and_limits_witness :
    ∃ c : ℚ, 0 ≤ c ∧
      rescaleToLimits [2, 3] [4, 1] = ([4, 1] : List ℚ).map (fun x => c * x) ∧
      (∀ (jvsolve : List ℚ → List ℚ) (q : List ℚ),
        vf_geodesic [2, 3] jvsolve q = rescaleToLimits [2, 3] (jvsolve q) ∧
        vf_straightline [2, 3] jvsolve q = rescaleToLimits [2, 3] (jvsolve q)) ∧
      (∀ i (h1 : i < ([4, 1] : List ℚ).length) (h2 : i < ([2, 3] : List ℚ).length),
        |c * ([4, 1] : List ℚ)[i]| ≤ ([2, 3] : List ℚ)[i]) ∧
      (∃ i, ∃ (h1 : i < ([4, 1] : List ℚ).length) (h2 : i < ([2, 3] : List ℚ).length),
        |c * ([4, 1] : List ℚ)[i]| = ([2, 3] : List ℚ)[i]) :=
  rescale_direction_and_limits [2, 3] [4, 1] rfl
    (by intro L hL; rcases List.mem_cons.mp hL with rfl | hL
        · norm_num
        · rcases List.mem_cons.mp hL with rfl | hL
          · norm_num
          · simp at hL)
    ⟨4, by simp, by norm_num⟩

/-- Claim C4 counterexample: with one chain requesting start sampling,
`PlanToTSR` raises the base `PlanningError` (vectorfield.py imports only
`PlanningError` and raises it directly), not the `UnsupportedPlanningError`
subclass the claim names; no sample is drawn. -/
theorem planToTSR_error_kind_counterexample :
    PlanToTSR [chainBad] (fun _ => false)
        (fun _ => Except.error (PyError.planningError "x")) (none : Option ℕ) 0 1
      = some (Except.error (PyError.planningError
          "Cannot handle start or trajectory-wide TSR constraints."), []) ∧
    resultUnsupported (PlanToTSR [chainBad] (fun _ => false)
        (fun _ => Except.error (PyError.planningError "x")) (none : Option ℕ) 0 1) = false := by
  exact ⟨rfl, rfl⟩

/-- Claim C4 (amended): whenever some supplied chain requires start sampling
or trajectory-wide constraints, `PlanToTSR` fails before drawing any sample —
but with the base recoverable `PlanningError`, not with the
`UnsupportedPlanningError` subclass. -/
theorem planToTSR_rejects_unsupported_chains {G R : Type} (chains : List (TSRChain G))
    (timeUp : ℕ → Bool) (attempt : G → Except PyError (List Waypoint)) (ranker : Option R)
    (defaultRanker : R) (fuel : ℕ)
    (h : ∃ c ∈ chains, c.sample_start = true ∨ c.constrain = true) :
    PlanToTSR chains timeUp attempt ranker defaultRanker fuel
      = some (Except.error (PyError.planningError
          "Cannot handle start or trajectory-wide TSR constraints."), []) := by
  have hany : chains.any (fun c => c.sample_start || c.constrain) = true := by
    rw [List.any_eq_true]
    obtain ⟨c, hc, hor⟩ := h
    refine ⟨c, hc, ?_⟩
    rcases hor with h' | h' <;> simp [h']
  simp [PlanToTSR, hany]

/-- Claim C4 witness: the amended statement at a concrete chain list. -/
theorem planToTSR_rejects_unsupported_chains_witness :
    PlanToTSR [chainBad] (fun _ => false)
        (fun _ => Except.error (PyError.planningError "y")) (none : Option ℕ) 0 2
      = some (Except.error (PyError.planningError
          "Cannot handle start or trajectory-wide TSR constraints."), []) :=
  planToTSR_rejects_unsupported_chains [chainBad] (fun _ => false)
    (fun _ => Except.error (PyError.planningError "y")) none 0 2
    ⟨chainBad, by simp, Or.inl rfl⟩

/-- Claim C9: the ranking function constructed in `PlanToTSR` is never
invoked — for any two ranker arguments (either may be absent, in which case
the externally built default is bound instead), the sampling sequence and
the result are identical. -/
theorem planToTSR_ranker_never_used {G R : Type} (chains : List (TSRChain G))
    (timeUp : ℕ → Bool) (attempt : G → Except PyError (List Waypoint))
    (ranker₁ ranker₂ : Option R) (default₁ default₂ : R) (fuel : ℕ) :
    PlanToTSR chains timeUp attempt ranker₁ default₁ fuel
      = PlanToTSR chains timeUp attempt ranker₂ default₂ fuel := rfl

end Prpy

